import Mathlib

/-!
Shallow embedding of the science-based-personal-trainer-assistant repository
(a retrieval-augmented question answering pipeline over fitness PDFs) and
proofs about its specified behaviour.

Text is modelled as `List Char`.  The Python string primitives used by the
source (`str.lower`, `str.replace(pat, '')`, `str.strip`, the `in` substring
operator, `os.path.basename`, and the one regex `\s*\(\d+\)\s*$` used in
`extract_topic_name`) are given explicit executable models below.
-/

/-- Model of Python `str.lower` (ASCII case folding, as used on the ASCII
filenames this repository deals with). -/
def pyLower (l : List Char) : List Char :=
  l.map Char.toLower

/-- Whitespace class used by Python `str.strip` and the regex class `\s`. -/
def isPySpace (c : Char) : Bool :=
  c == ' ' || c == '\t' || c == '\n' || c == '\r' || c == '\x0b' || c == '\x0c'

/-- Strip trailing whitespace (model of Python `str.rstrip`). -/
def pyRStrip (l : List Char) : List Char :=
  (l.reverse.dropWhile isPySpace).reverse

/-- Model of Python `str.strip`: drop whitespace from both ends. -/
def pyStrip (l : List Char) : List Char :=
  pyRStrip (l.dropWhile isPySpace)

/-- Worker for `removeOcc`.  The first argument counts characters of a
matched pattern occurrence that remain to be skipped; at 0 the scan tests
whether the pattern starts at the current position, drops its first
character and arranges for the remaining `pat.length - 1` to be skipped.
Structurally recursive on the scanned list so that it evaluates in the
kernel. -/
def removeOccAux (pat : List Char) : Nat → List Char → List Char
  | _, [] => []
  | Nat.succ k, _ :: rest => removeOccAux pat k rest
  | 0, c :: rest =>
    if !pat.isEmpty && pat.isPrefixOf (c :: rest) then
      removeOccAux pat (pat.length - 1) rest
    else
      c :: removeOccAux pat 0 rest

/-- Model of Python `s.replace(pat, '')`: remove every non-overlapping
occurrence of `pat`, scanning left to right.  Python leaves `s` unchanged
when the pattern is empty and the replacement is empty. -/
def removeOcc (pat : List Char) (s : List Char) : List Char :=
  removeOccAux pat 0 s

/-- Model of the Python substring operator `pat in s`. -/
def containsSub (pat : List Char) : List Char → Bool
  | [] => pat.isEmpty
  | c :: rest => pat.isPrefixOf (c :: rest) || containsSub pat rest

/-- Model of `os.path.basename` (POSIX): everything after the last slash. -/
def basename (l : List Char) : List Char :=
  (l.reverse.takeWhile (fun c => c != '/')).reverse

/-! ## config.py -/

/-- From src/config.py: CHUNK_SIZE = 1000. -/
def CHUNK_SIZE : Nat := 1000

/-- From src/config.py: CHUNK_OVERLAP = 200. -/
def CHUNK_OVERLAP : Nat := 200

/-- From src/config.py: the fixed ordered category → keyword-list table
(Python dicts preserve insertion order, so iteration order is
nutrition, training, science, lifestyle). -/
def MODULE_CATEGORIES : List (String × List String) :=
  [("nutrition",
    ["ad libitum", "adherence", "biochemistry", "carbohydrates",
     "dietary fat", "energy", "fasting", "ketogenic", "macronutrition",
     "micronutrition", "nutrition case", "periodization", "protein",
     "supplements", "health science and food"]),
   ("training",
    ["advanced strength", "age specific", "cardio", "exercise library",
     "exercise performance", "exercise selection", "how to structure",
     "injury management", "powerlifting", "program customization",
     "stretching", "training case", "training gear", "training volume",
     "understanding muscle", "warming up", "posture"]),
   ("science",
    ["biochemistry", "muscle functional anatomy", "understanding muscle growth"]),
   ("lifestyle",
    ["business", "fitness for women", "lifestyle factors",
     "how to learn think and research"])]

/-! ## pdf_loader.py: the Categorizer -/

/-- The normalization step of `extract_module_category`: lowercase, remove
the suffix tokens "ptc 2022" and "ptc 2023", remove ".pdf", strip. -/
def categoryNormalize (filename : List Char) : List Char :=
  pyStrip (removeOcc (String.toList ".pdf")
    (removeOcc (String.toList "ptc 2023")
      (removeOcc (String.toList "ptc 2022") (pyLower filename))))

/-- One row of the category table matches when some keyword occurs as a
substring of the normalized filename. -/
def categoryMatches (n : List Char) (entry : String × List String) : Bool :=
  entry.2.any (fun kw => containsSub (String.toList kw) n)

/-- From src/pdf_loader.py, `extract_module_category`: scan the fixed table
in order and return the first category one of whose keywords occurs in the
normalized filename, else "general". -/
def extract_module_category (filename : List Char) : String :=
  match MODULE_CATEGORIES.find? (categoryMatches (categoryNormalize filename)) with
  | some entry => entry.1
  | none => "general"

/-- Model of a successful match of the anchored regex `\s*\(\d+\)\s*$`
against the whole of `l`: optional whitespace, a parenthesized nonempty
digit run, optional whitespace, end of string. -/
def matchesCounterSuffix (l : List Char) : Bool :=
  match l.dropWhile isPySpace with
  | '(' :: rest =>
    !(rest.takeWhile Char.isDigit).isEmpty &&
    (match rest.dropWhile Char.isDigit with
     | ')' :: tail => tail.all isPySpace
     | _ => false)
  | _ => false

/-- Whether the anchored counter regex matches somewhere in `l`, i.e.
whether `re.sub(r'\s*\(\d+\)\s*$', '', l)` would remove anything. -/
def hasTrailingCounter (l : List Char) : Bool :=
  (List.range (l.length + 1)).any (fun i => matchesCounterSuffix (l.drop i))

/-- Model of `re.sub(r'\s*\(\d+\)\s*$', '', s)`: the regex engine removes
the match starting at the leftmost position whose suffix matches (the `$`
anchor forces the match to reach the end, so at most one substitution can
happen). -/
def stripTrailingCounter (l : List Char) : List Char :=
  match (List.range (l.length + 1)).find? (fun i => matchesCounterSuffix (l.drop i)) with
  | some i => l.take i
  | none => l

/-- From src/pdf_loader.py, `extract_topic_name`: remove the (case
sensitive) markers "PTC 2022" and "PTC 2023" and ".pdf", remove a trailing
parenthesized counter such as " (1)", then strip whitespace. -/
def extract_topic_name (filename : List Char) : List Char :=
  pyStrip (stripTrailingCounter (removeOcc (String.toList ".pdf")
    (removeOcc (String.toList "PTC 2023")
      (removeOcc (String.toList "PTC 2022") filename))))

/-! ## pdf_loader.py: the Chunker

The text splitter itself (`RecursiveCharacterTextSplitter`) is a
third-party library component, not code of this repository, so it is
modelled from the spec (section 4.2).  The metadata-tagging loop that runs
after it is repository code and is embedded from the source. -/

/-- From src/pdf_loader.py `split_documents`: the separator priority list
`["\n\n", "\n", ". ", " ", ""]` handed to the splitter. -/
def SEPARATORS : List (List Char) :=
  [String.toList "\n\n", String.toList "\n",
   String.toList ". ", String.toList " ", []]

/-- Worker for `splitOnSep`: split a text at every non-overlapping
occurrence of a nonempty separator, scanning left to right; the separators
are not kept.  `acc` holds the piece being built, in reverse; the `Nat`
argument counts separator characters that remain to be skipped.
Structurally recursive on the scanned list so that it evaluates in the
kernel. -/
def splitOnSepAux (sp : List Char) : Nat → List Char → List Char → List (List Char)
  | _, acc, [] => [acc.reverse]
  | Nat.succ k, acc, _ :: rest => splitOnSepAux sp k acc rest
  | 0, acc, c :: rest =>
    if !sp.isEmpty && sp.isPrefixOf (c :: rest) then
      acc.reverse :: splitOnSepAux sp (sp.length - 1) [] rest
    else
      splitOnSepAux sp 0 (c :: acc) rest

/-- Split a text on a nonempty separator. -/
def splitOnSep (sp : List Char) (l : List Char) : List (List Char) :=
  splitOnSepAux sp 0 [] l

/-- Modelled from the spec: the recursive phase of the external
`RecursiveCharacterTextSplitter` (section 4.2: split each text recursively
by a priority list of separators so that each resulting piece is at most
the target size whenever a suitable separator exists).  A text already
within the target size is kept whole; otherwise the first separator is
tried: the empty separator splits into single characters, a nonempty one
splits on its occurrences and each piece is split further with the
remaining separators; a too-long text with no separators left is returned
whole (the unsplittable atomic-token case). -/
def splitRec (size : Nat) : List (List Char) → List Char → List (List Char)
  | [], text => [text]
  | sp :: rest, text =>
    if text.length ≤ size then [text]
    else if sp.isEmpty then text.map (fun c => [c])
    else (splitOnSep sp text).flatMap (splitRec size rest)

/-- The suffix of a list of at most `n` elements. -/
def takeLast (n : Nat) (l : List Char) : List Char :=
  l.drop (l.length - n)

/-- Modelled from the spec: the merge phase of the external splitter
(section 4.2 and section 3: adjacent pieces are recombined greedily up to
the target size, and when a new chunk is started it shares up to `overlap`
trailing characters of the previous chunk, never letting the overlap push
a chunk past the target size).  `cur` is the chunk under construction. -/
def mergeGo (size overlap : Nat) (cur : List Char) :
    List (List Char) → List (List Char)
  | [] => [cur]
  | p :: ps =>
    if cur.length + p.length ≤ size then
      mergeGo size overlap (cur ++ p) ps
    else
      cur :: mergeGo size overlap (takeLast (min overlap (size - p.length)) cur ++ p) ps

/-- Merge a nonempty piece list into overlapping chunks; an empty piece
list yields no chunks. -/
def mergeSplits (size overlap : Nat) : List (List Char) → List (List Char)
  | [] => []
  | p :: ps => mergeGo size overlap p ps

/-- Modelled from the spec: the external splitter applied to one text =
recursive splitting followed by merging with overlap. -/
def splitText (size overlap : Nat) (text : List Char) : List (List Char) :=
  mergeSplits size overlap (splitRec size SEPARATORS text)

/-- A loaded page: raw text plus the source file path (langchain
`Document` restricted to the attributes this repository reads). -/
structure Document where
  page_content : List Char
  source : List Char
deriving Repr, DecidableEq

/-- A chunk after the metadata-tagging loop of `split_documents`: text
plus the metadata keys the loop writes (`source` is inherited from the
originating document). -/
structure Chunk where
  page_content : List Char
  source : List Char
  chunk_id : Nat
  chunk_length : Nat
  category : String
  topic : List Char
  course : String
deriving Repr, DecidableEq

/-- The chunk stream `text_splitter.split_documents(documents)` hands to
the metadata loop of `split_documents`: every document split by the
configured splitter, each piece paired with its document's source path
(langchain copies the document metadata onto each chunk). -/
def rawPieces (documents : List Document)
    (chunk_size chunk_overlap : Nat) : List (List Char × List Char) :=
  documents.flatMap (fun d =>
    (splitText chunk_size chunk_overlap d.page_content).map (fun t => (t, d.source)))

/-- From src/pdf_loader.py, `split_documents`: split every document with
the configured splitter, then `enumerate` the resulting chunks over the
whole corpus and attach `chunk_id`, `chunk_length`, `category`, `topic`
(both computed from `os.path.basename` of the chunk's source) and the
fixed `course` marker. -/
def split_documents (documents : List Document)
    (chunk_size chunk_overlap : Nat) : List Chunk :=
  (rawPieces documents chunk_size chunk_overlap).enum.map (fun p =>
    { page_content := p.2.1
      source := p.2.2
      chunk_id := p.1
      chunk_length := p.2.1.length
      category := extract_module_category (basename p.2.2)
      topic := extract_topic_name (basename p.2.2)
      course := "Menno Henselmans PTC" })

/-! ## vector_store.py and load_pdfs

The filesystem, the embedding model and the FAISS library are external;
they are modelled by an environment record `FS` and by an event trace that
records the externally visible actions the code performs, in order. -/

/-- Python exceptions raised by this code base.  `noInputError` is the
`NoInputError` of the spec's error taxonomy (section 7); it is included so
that claims about it can be stated, and the code model never produces it. -/
inductive PyErr where
  | fileNotFoundError (msg : String)
  | valueError (msg : String)
  | indexError
  | noInputError
deriving Repr, DecidableEq

/-- The spec's `CorpusNotFoundError` class (section 7: no PDFs at the
expected location); realized in the code by `FileNotFoundError` for a
missing directory and `ValueError` for a directory with no PDF files. -/
def isCorpusNotFound : PyErr → Bool
  | .fileNotFoundError _ => true
  | .valueError _ => true
  | _ => false

/-- Externally visible actions of the index build/load path, in program
order: directory creation, the interactive recreate prompt, construction
of the embedding model (`HuggingFaceEmbeddings(...)`), the embedding of
the chunk texts inside `FAISS.from_documents`, persisting the index
(`save_local`) and loading a persisted index (`load_local`). -/
inductive Event where
  | makedirs (dir : String)
  | promptRecreate
  | embedInit
  | embedDocuments (n : Nat)
  | saveIndex (dir : String)
  | loadIndex (dir : String)
deriving Repr, DecidableEq

/-- Embedding work: constructing the embedding model or embedding texts. -/
def isEmbedEvent : Event → Bool
  | .embedInit => true
  | .embedDocuments _ => true
  | _ => false

/-- Environment the code runs against: which directories exist, which PDF
files a directory holds, the pages the PDF loader produces for it, and
whether a persisted `index.faiss` exists at a location. -/
structure FS where
  dirExists : String → Bool
  pdfFiles : String → List String
  pdfDocs : String → List Document
  indexExists : String → Bool

/-- From src/pdf_loader.py, `load_pdfs`: raise `FileNotFoundError` when
the directory is missing, `ValueError` when it holds no PDF files, and
otherwise return the pages the external loader produces. -/
def load_pdfs (fs : FS) (dir : String) : Except PyErr (List Document) :=
  if fs.dirExists dir = false then
    .error (.fileNotFoundError ("Directory " ++ dir ++ " not found!"))
  else if (fs.pdfFiles dir).isEmpty then
    .error (.valueError ("No PDF files found in " ++ dir))
  else
    .ok (fs.pdfDocs dir)

/-- Result of the builder/loader: a store freshly built from chunks, or
the existing persisted store at a location. -/
inductive VSResult where
  | built (chunks : List Chunk)
  | loaded (dir : String)
deriving Repr, DecidableEq

/-- From src/vector_store.py, `load_vector_store`: raise
`FileNotFoundError` when no `index.faiss` exists at the location,
otherwise construct the embedding model and load the persisted index. -/
def load_vector_store (fs : FS) (dir : String) :
    Except PyErr VSResult × List Event :=
  if fs.indexExists dir then
    (.ok (.loaded dir), [.embedInit, .loadIndex dir])
  else
    (.error (.fileNotFoundError ("FAISS index not found at " ++ dir)), [])

/-- The build phase of `create_vector_store` (after the recreate gate):
when `chunks is None` the corpus is loaded and split first (errors
propagate, before any embedding work); then the embedding model is
constructed and `FAISS.from_documents` embeds the chunk texts.  The FAISS
library raises `IndexError` on an empty document list (it indexes the
first embedding to read the dimension); on success the index is saved. -/
def buildIndex (fs : FS) (chunks : Option (List Chunk)) (dir pdfDir : String)
    (ev : List Event) : Except PyErr VSResult × List Event :=
  match (match chunks with
         | some cs => Except.ok cs
         | none => (load_pdfs fs pdfDir).map
             (fun docs => split_documents docs CHUNK_SIZE CHUNK_OVERLAP)) with
  | .error e => (.error e, ev)
  | .ok cs =>
    if cs.isEmpty then
      (.error .indexError, ev ++ [.embedInit, .embedDocuments cs.length])
    else
      (.ok (.built cs), ev ++ [.embedInit, .embedDocuments cs.length, .saveIndex dir])

/-- From src/vector_store.py, `create_vector_store`: ensure the target
directory exists; when an index is already present and `force_recreate` is
not set, prompt the user and, unless the lowercased response is exactly
"y", load and return the existing index; otherwise (no index, or forced,
or confirmed) build and persist a fresh one.  `userResponse` is what
`input()` returns at the prompt; `pdfDir` is the corpus location used when
`chunks is None`. -/
def create_vector_store (fs : FS) (chunks : Option (List Chunk))
    (dir : String) (force_recreate : Bool) (userResponse : List Char)
    (pdfDir : String) : Except PyErr VSResult × List Event :=
  if fs.indexExists dir && !force_recreate then
    if pyLower userResponse ≠ String.toList "y" then
      let r := load_vector_store fs dir
      (r.1, [.makedirs dir, .promptRecreate] ++ r.2)
    else
      buildIndex fs chunks dir pdfDir [.makedirs dir, .promptRecreate]
  else
    buildIndex fs chunks dir pdfDir [.makedirs dir]

/-! ## rag_chain.py: ask_question and the query logger

`chain.invoke` (retrieval plus hosted-LLM generation) is external; its
outcome is a parameter.  The two `open(...).write(...)` appends to the
query log are the only log operations; a possible `IOError` of each append
is a parameter (`none` = the write succeeds).  The log file is modelled as
the list of records it contains. -/

/-- From src/rag_chain.py: the fixed model identifier. -/
def GROQ_MODEL : String := "llama-3.3-70b-versatile"

/-- One JSON record of logs/queries.jsonl, restricted to the fields the
claims are about (timing fields are omitted).  A success record carries
`answer_length` and `num_sources`; a failure record carries `error` in
their place. -/
structure QueryLogRecord where
  question : String
  answer_length : Option Nat
  num_sources : Option Nat
  errorMsg : Option String
  model : String
  success : Bool
deriving Repr, DecidableEq

/-- The success-path record written by `ask_question`. -/
def mkSuccessRecord (q a : String) (sources : List Chunk) : QueryLogRecord :=
  { question := q, answer_length := some a.length,
    num_sources := some sources.length, errorMsg := none,
    model := GROQ_MODEL, success := true }

/-- The failure-path record written by `ask_question`. -/
def mkErrorRecord (q : String) (e : String) : QueryLogRecord :=
  { question := q, answer_length := none, num_sources := none,
    errorMsg := some e, model := GROQ_MODEL, success := false }

/-- The `except` branch of `ask_question`: append a failure record and
return the sentinel `(None, [])`; a failure of this append itself is not
caught by anything and propagates. -/
def logFailure (q : String) (e : String) (failWriteError : Option String)
    (log : List QueryLogRecord) :
    Except String ((Option String × List Chunk) × List QueryLogRecord) :=
  match failWriteError with
  | some m => .error m
  | none => .ok ((none, []), log ++ [mkErrorRecord q e])

/-- From src/rag_chain.py, `ask_question`: run `chain.invoke`; on success
append a success record and return `(answer, sources)`; any exception
inside the `try` block (from invoke, or from the success-path log append
itself) is caught by the single `except`, which appends a failure record
carrying the question and the error message and returns `(None, [])`. -/
def ask_question (question : String)
    (invokeResult : Except String (String × List Chunk))
    (successWriteError failWriteError : Option String)
    (log : List QueryLogRecord) :
    Except String ((Option String × List Chunk) × List QueryLogRecord) :=
  match invokeResult with
  | .error e => logFailure question e failWriteError log
  | .ok (answer, sources) =>
    match successWriteError with
    | some m => logFailure question m failWriteError log
    | none => .ok ((some answer, sources), log ++ [mkSuccessRecord question answer sources])

/-! ## Concrete fixtures used by witness theorems -/

/-- An environment with a persisted index already present everywhere. -/
def fsWithIndex : FS :=
  { dirExists := fun _ => true, pdfFiles := fun _ => [],
    pdfDocs := fun _ => [], indexExists := fun _ => true }

/-- An environment with no index and no PDF corpus directory. -/
def fsNoCorpus : FS :=
  { dirExists := fun _ => false, pdfFiles := fun _ => [],
    pdfDocs := fun _ => [], indexExists := fun _ => false }

/-- A one-page sample document. -/
def sampleDoc : Document :=
  { page_content := String.toList "Protein intake matters.",
    source := String.toList "PDFs/Protein PTC 2022.pdf" }

/-- The single chunk `split_documents` produces from `sampleDoc`. -/
def sampleChunk : Chunk :=
  { page_content := String.toList "Protein intake matters.",
    source := String.toList "PDFs/Protein PTC 2022.pdf",
    chunk_id := 0, chunk_length := 23, category := "nutrition",
    topic := String.toList "Protein", course := "Menno Henselmans PTC" }

/-!
# Theorems

First a collection of helper lemmas about the string primitives and the
splitter, then one theorem per claim (with witnesses and counterexamples
where applicable).
-/

theorem removeOcc_eq_self {pat s : List Char} (h : containsSub pat s = false) :
    removeOcc pat s = s := by
  induction s with
  | nil => rfl
  | cons c rest ih =>
    have h2 : pat.isPrefixOf (c :: rest) = false ∧ containsSub pat rest = false := by
      simpa [containsSub] using h
    have hrest : removeOccAux pat 0 rest = rest := ih h2.2
    simp [removeOcc, removeOccAux, h2.1, hrest]

theorem dropWhile_self_dropWhile (p : Char → Bool) (l : List Char) :
    (l.dropWhile p).dropWhile p = l.dropWhile p := by
  induction l with
  | nil => rfl
  | cons c t ih =>
    by_cases hc : p c
    · simp [List.dropWhile_cons, hc, ih]
    · simp [List.dropWhile_cons, hc]

theorem dropWhile_head_false {p : Char → Bool} {l : List Char} {c : Char}
    {t : List Char} (h : l.dropWhile p = c :: t) : p c = false := by
  induction l with
  | nil => simp at h
  | cons a l ih =>
    rw [List.dropWhile_cons] at h
    by_cases ha : p a
    · rw [if_pos ha] at h
      exact ih h
    · rw [if_neg ha] at h
      injection h with h1 h2
      subst h1
      simpa using ha

theorem pyRStrip_of_pyStrip_eq (l : List Char) :
    pyRStrip (pyStrip l) = pyStrip l := by
  have hrev : (pyStrip l).reverse = (l.dropWhile isPySpace).reverse.dropWhile isPySpace := by
    simp [pyStrip, pyRStrip]
  simp only [pyRStrip, hrev, dropWhile_self_dropWhile]
  simp [pyStrip, pyRStrip]

theorem dropWhile_of_pyStrip_eq (l : List Char) :
    (pyStrip l).dropWhile isPySpace = pyStrip l := by
  have hpre : pyStrip l <+: l.dropWhile isPySpace := by
    rw [← List.reverse_suffix]
    have : (pyStrip l).reverse = (l.dropWhile isPySpace).reverse.dropWhile isPySpace := by
      simp [pyStrip, pyRStrip]
    rw [this]
    exact List.dropWhile_suffix _
  rcases hm : pyStrip l with _ | ⟨c, t⟩
  · rfl
  · rw [hm] at hpre
    obtain ⟨u, hu⟩ := hpre
    have hhead : l.dropWhile isPySpace = c :: (t ++ u) := by
      rw [← hu]
      rfl
    have hc : isPySpace c = false := dropWhile_head_false hhead
    rw [List.dropWhile_cons, if_neg (by simp [hc])]

theorem pyStrip_idem (l : List Char) : pyStrip (pyStrip l) = pyStrip l := by
  calc pyStrip (pyStrip l)
      = pyRStrip ((pyStrip l).dropWhile isPySpace) := rfl
    _ = pyRStrip (pyStrip l) := by rw [dropWhile_of_pyStrip_eq]
    _ = pyStrip l := pyRStrip_of_pyStrip_eq l

theorem stripTrailingCounter_eq_self {l : List Char}
    (h : hasTrailingCounter l = false) : stripTrailingCounter l = l := by
  simp only [hasTrailingCounter] at h
  have hn : (List.range (l.length + 1)).find?
      (fun i => matchesCounterSuffix (l.drop i)) = none := by
    apply List.find?_eq_none.mpr
    intro i hi
    simpa using (List.any_eq_false.mp h) i hi
  simp [stripTrailingCounter, hn]

/-- C1: if retrieval or generation inside `ask_question` fails (the
`chain.invoke` call raises, with message `e`), then — the log append
itself succeeding, which is the separate concern of C9 — `ask_question`
returns the sentinel `(None, [])` and the log grows by exactly one record,
which is marked unsuccessful and carries the triggering question and the
error message. -/
theorem C1_failure_sentinel_and_single_log_record
    (q e : String) (swe : Option String) (log : List QueryLogRecord) :
    ask_question q (.error e) swe none log =
      .ok ((none, []), log ++ [mkErrorRecord q e]) ∧
    (mkErrorRecord q e).success = false ∧
    (mkErrorRecord q e).question = q ∧
    (mkErrorRecord q e).errorMsg = some e :=
  ⟨rfl, rfl, rfl, rfl⟩

/-- C9 counterexample: the claim says a failure of the query-log append
itself always propagates to the caller and is never swallowed.  But the
success-path append sits inside the `try` block: here the invoke succeeds,
the success-path append fails with "disk full", and `ask_question`
nevertheless returns normally (the write failure was caught by the
`except` branch, which logged a failure record instead). -/
theorem C9_counterexample :
    ask_question "q" (.ok ("ans", [])) (some "disk full") none [] =
      .ok ((none, []), [mkErrorRecord "q" "disk full"]) := rfl

/-- C9 (amended): the query logger only ever appends — on any normal
return the previous log is a prefix and at most one record is added; a
failure of the failure-path append (the one in the `except` branch)
propagates to the caller; but a failure of the success-path append is
caught by the surrounding `except` and converted into the sentinel result
plus a single failure record, rather than propagating. -/
theorem C9_append_only_and_error_path_write_failure_propagates
    (q : String) (inv : Except String (String × List Chunk))
    (swe fwe : Option String) (log : List QueryLogRecord) :
    (∀ res log2, ask_question q inv swe fwe log = .ok (res, log2) →
      ∃ tail, log2 = log ++ tail ∧ tail.length ≤ 1) ∧
    (∀ e m, inv = .error e → fwe = some m →
      ask_question q inv swe fwe log = .error m) ∧
    (∀ a s m, inv = .ok (a, s) → swe = some m → fwe = none →
      ask_question q inv swe fwe log =
        .ok ((none, []), log ++ [mkErrorRecord q m])) := by
  refine ⟨?_, ?_, ?_⟩
  · intro res log2 hok
    rcases inv with e | ⟨a, s⟩
    · rcases fwe with _ | m
      · simp only [ask_question, logFailure] at hok
        exact ⟨[mkErrorRecord q e], by injection hok with h; injection h with h1 h2; rw [h2], by simp⟩
      · simp [ask_question, logFailure] at hok
    · rcases swe with _ | m
      · simp only [ask_question] at hok
        exact ⟨[mkSuccessRecord q a s], by injection hok with h; injection h with h1 h2; rw [h2], by simp⟩
      · rcases fwe with _ | m2
        · simp only [ask_question, logFailure] at hok
          exact ⟨[mkErrorRecord q m], by injection hok with h; injection h with h1 h2; rw [h2], by simp⟩
        · simp [ask_question, logFailure] at hok
  · rintro e m rfl rfl
    rfl
  · rintro a s m rfl rfl rfl
    rfl

/-- C9 witness: at concrete inputs, a failing failure-path append
propagates its exception, and a failing success-path append is converted
into the sentinel plus one failure record. -/
theorem C9_amended_witness :
    ask_question "q" (.error "boom") none (some "disk full") [] = .error "disk full" ∧
    ask_question "q2" (.ok ("ans", [])) (some "disk full") none [] =
      .ok ((none, []), [mkErrorRecord "q2" "disk full"]) := by
  constructor
  · exact (C9_append_only_and_error_path_write_failure_propagates
      "q" (.error "boom") none (some "disk full") []).2.1 "boom" "disk full" rfl rfl
  · have h := (C9_append_only_and_error_path_write_failure_propagates
      "q2" (.ok ("ans", [])) (some "disk full") none []).2.2 "ans" [] "disk full" rfl rfl rfl
    simpa using h

/-- C2: `extract_module_category` is total and always returns one of the
five labels; when no keyword of any category occurs in the normalized
filename it returns "general"; and it returns the category of the first
row of the fixed table (in order) one of whose keywords occurs as a
substring of the normalized name. -/
theorem C2_extract_module_category_first_match (filename : List Char) :
    (extract_module_category filename = "nutrition" ∨
     extract_module_category filename = "training" ∨
     extract_module_category filename = "science" ∨
     extract_module_category filename = "lifestyle" ∨
     extract_module_category filename = "general") ∧
    ((∀ entry ∈ MODULE_CATEGORIES,
        categoryMatches (categoryNormalize filename) entry = false) →
      extract_module_category filename = "general") ∧
    (∀ pre entry post, MODULE_CATEGORIES = pre ++ entry :: post →
      categoryMatches (categoryNormalize filename) entry = true →
      (∀ q ∈ pre, categoryMatches (categoryNormalize filename) q = false) →
      extract_module_category filename = entry.1) := by
  refine ⟨?_, ?_, ?_⟩
  · rcases hf : MODULE_CATEGORIES.find? (categoryMatches (categoryNormalize filename))
      with _ | entry
    · simp [extract_module_category, hf]
    · have hmem := List.mem_of_find?_eq_some hf
      have hval : extract_module_category filename = entry.1 := by
        simp [extract_module_category, hf]
      rw [hval]
      simp only [List.mem_cons, List.not_mem_nil, or_false, MODULE_CATEGORIES] at hmem
      rcases hmem with rfl | rfl | rfl | rfl <;> simp
  · intro h
    have hf : MODULE_CATEGORIES.find? (categoryMatches (categoryNormalize filename)) = none :=
      List.find?_eq_none.mpr (fun x hx => by simp [h x hx])
    simp [extract_module_category, hf]
  · intro pre entry post heq hmatch hpre
    have h1 : pre.find? (categoryMatches (categoryNormalize filename)) = none :=
      List.find?_eq_none.mpr (fun x hx => by simp [hpre x hx])
    have hf : MODULE_CATEGORIES.find? (categoryMatches (categoryNormalize filename))
        = some entry := by
      rw [heq, List.find?_append, h1, List.find?_cons_of_pos _ hmatch]
      rfl
    simp [extract_module_category, hf]

/-- C2 witness: a filename that matches no keyword is categorized
"general"; "Protein PTC 2022.pdf" hits the first (nutrition) row. -/
theorem C2_witness :
    extract_module_category (String.toList "Mystery Module.pdf") = "general" ∧
    extract_module_category (String.toList "Protein PTC 2022.pdf") = "nutrition" := by
  constructor
  · exact (C2_extract_module_category_first_match _).2.1 (by decide)
  · exact (C2_extract_module_category_first_match
      (String.toList "Protein PTC 2022.pdf")).2.2
      [] (MODULE_CATEGORIES.get ⟨0, by decide⟩) (MODULE_CATEGORIES.drop 1)
      (by decide) (by decide) (by decide)

/-- C6 counterexample: topic extraction is not idempotent as claimed.  The
regex `\s*\(\d+\)\s*$` removes only the last trailing counter, so one pass
over "foo (1) (2)" yields "foo (1)" and a second pass yields "foo". -/
theorem C6_counterexample :
    extract_topic_name (extract_topic_name (String.toList "foo (1) (2)")) ≠
      extract_topic_name (String.toList "foo (1) (2)") := by decide

/-- C6 (amended): topic extraction is idempotent on every filename whose
extracted topic contains no further occurrence of the removed tokens
"PTC 2022", "PTC 2023" or ".pdf" and no trailing parenthesized counter
(re-running extraction on such an already-cleaned name returns it
unchanged).  The unamended claim fails only on names where removal or the
single regex substitution leaves such a token behind. -/
theorem C6_extract_topic_name_idempotent_on_clean
    (filename : List Char)
    (h1 : containsSub (String.toList "PTC 2022") (extract_topic_name filename) = false)
    (h2 : containsSub (String.toList "PTC 2023") (extract_topic_name filename) = false)
    (h3 : containsSub (String.toList ".pdf") (extract_topic_name filename) = false)
    (h4 : hasTrailingCounter (extract_topic_name filename) = false) :
    extract_topic_name (extract_topic_name filename) = extract_topic_name filename := by
  conv_lhs => rw [extract_topic_name]
  rw [removeOcc_eq_self h1, removeOcc_eq_self h2, removeOcc_eq_self h3,
    stripTrailingCounter_eq_self h4]
  rw [extract_topic_name]
  exact pyStrip_idem _

/-- C6 witness: a realistic filename on which extraction is idempotent. -/
theorem C6_witness :
    extract_topic_name (extract_topic_name (String.toList "Protein PTC 2022 (1).pdf")) =
      extract_topic_name (String.toList "Protein PTC 2022 (1).pdf") :=
  C6_extract_topic_name_idempotent_on_clean _
    (by decide) (by decide) (by decide) (by decide)

theorem takeLast_length_le (n : Nat) (l : List Char) :
    (takeLast n l).length ≤ n := by
  simp only [takeLast, List.length_drop]
  omega

theorem mergeGo_bound {size overlap : Nat} :
    ∀ (ps : List (List Char)) (cur : List Char), cur.length ≤ size →
      (∀ p ∈ ps, p.length ≤ size) →
      ∀ c ∈ mergeGo size overlap cur ps, c.length ≤ size := by
  intro ps
  induction ps with
  | nil =>
    intro cur hcur _ c hc
    simp only [mergeGo, List.mem_singleton] at hc
    subst hc
    exact hcur
  | cons p ps ih =>
    intro cur hcur hall c hc
    have hp : p.length ≤ size := hall p (List.mem_cons_self _ _)
    have hall2 : ∀ x ∈ ps, x.length ≤ size :=
      fun x hx => hall x (List.mem_cons_of_mem _ hx)
    simp only [mergeGo] at hc
    by_cases hle : cur.length + p.length ≤ size
    · rw [if_pos hle] at hc
      exact ih (cur ++ p) (by simpa using hle) hall2 c hc
    · rw [if_neg hle] at hc
      rcases List.mem_cons.mp hc with rfl | hc2
      · exact hcur
      · refine ih _ ?_ hall2 c hc2
        have ht := takeLast_length_le (min overlap (size - p.length)) cur
        have hmin : min overlap (size - p.length) ≤ size - p.length :=
          Nat.min_le_right _ _
        simp only [List.length_append]
        omega

theorem splitRec_bound {size : Nat} (hsize : 1 ≤ size) :
    ∀ (seps : List (List Char)), [] ∈ seps →
      ∀ (text : List Char), ∀ c ∈ splitRec size seps text, c.length ≤ size := by
  intro seps
  induction seps with
  | nil =>
    intro h
    simp at h
  | cons sp rest ih =>
    intro hmem text c hc
    simp only [splitRec] at hc
    by_cases hlen : text.length ≤ size
    · rw [if_pos hlen] at hc
      simp only [List.mem_singleton] at hc
      subst hc
      exact hlen
    · rw [if_neg hlen] at hc
      by_cases hsp : sp.isEmpty
      · rw [if_pos hsp] at hc
        simp only [List.mem_map] at hc
        obtain ⟨x, -, rfl⟩ := hc
        simpa using hsize
      · rw [if_neg hsp] at hc
        simp only [List.mem_flatMap] at hc
        obtain ⟨piece, -, hcp⟩ := hc
        have hrest : [] ∈ rest := by
          rcases List.mem_cons.mp hmem with heq | h
          · exact absurd heq.symm (by simpa [List.isEmpty_iff] using hsp)
          · exact h
        exact ih hrest piece c hcp

theorem splitText_bound {size overlap : Nat} (hsize : 1 ≤ size)
    (text : List Char) : ∀ c ∈ splitText size overlap text, c.length ≤ size := by
  intro c hc
  rw [splitText] at hc
  rcases hsp : splitRec size SEPARATORS text with _ | ⟨p, ps⟩
  · rw [hsp] at hc
    simp [mergeSplits] at hc
  · rw [hsp] at hc
    simp only [mergeSplits] at hc
    have hall : ∀ x ∈ p :: ps, x.length ≤ size := by
      intro x hx
      rw [← hsp] at hx
      exact splitRec_bound hsize SEPARATORS (by simp [SEPARATORS]) text x hx
    exact mergeGo_bound ps p (hall p (List.mem_cons_self _ _))
      (fun x hx => hall x (List.mem_cons_of_mem _ hx)) c hc

theorem split_documents_chunk_ids (documents : List Document) (cs co : Nat) :
    (split_documents documents cs co).map (fun c => c.chunk_id) =
      List.range (rawPieces documents cs co).length := by
  simp only [split_documents, List.map_map]
  exact List.enum_map_fst _

/-- C3: over any (in particular any non-empty) document sequence, the
chunk ids `split_documents` assigns are strictly increasing in output
order across the whole corpus, hence pairwise distinct. -/
theorem C3_chunk_ids_strictly_increasing_and_distinct
    (documents : List Document) (hne : documents ≠ []) :
    List.Pairwise (· < ·)
      ((split_documents documents CHUNK_SIZE CHUNK_OVERLAP).map (fun c => c.chunk_id)) ∧
    ((split_documents documents CHUNK_SIZE CHUNK_OVERLAP).map (fun c => c.chunk_id)).Nodup := by
  rw [split_documents_chunk_ids]
  exact ⟨List.pairwise_lt_range _, List.nodup_range _⟩

/-- C3 witness at a concrete one-document corpus. -/
theorem C3_witness :
    [sampleDoc] ≠ ([] : List Document) ∧
    List.Pairwise (· < ·)
      ((split_documents [sampleDoc] CHUNK_SIZE CHUNK_OVERLAP).map (fun c => c.chunk_id)) :=
  ⟨by decide, (C3_chunk_ids_strictly_increasing_and_distinct [sampleDoc] (by decide)).1⟩

/-- C7: every chunk produced by `split_documents` at the configured sizes
has text of length at most `CHUNK_SIZE`, or consists of a single atomic
token containing none of the nonempty separators.  (With the configured
separator list, which ends with the empty separator, the left disjunct in
fact always holds.) -/
theorem C7_chunk_length_bounded (documents : List Document) (c : Chunk)
    (hc : c ∈ split_documents documents CHUNK_SIZE CHUNK_OVERLAP) :
    c.page_content.length ≤ CHUNK_SIZE ∨
      (∀ sp ∈ SEPARATORS, sp ≠ [] → containsSub sp c.page_content = false) := by
  left
  simp only [split_documents, List.mem_map] at hc
  obtain ⟨p, hp, rfl⟩ := hc
  obtain ⟨i, x⟩ := p
  have hx := List.mem_enum hp
  have hmem : x ∈ rawPieces documents CHUNK_SIZE CHUNK_OVERLAP := by
    rw [hx.2]
    exact List.getElem_mem _
  simp only [rawPieces, List.mem_flatMap, List.mem_map] at hmem
  obtain ⟨d, -, t, ht, hpt⟩ := hmem
  have hx1 : x.1 = t := by rw [← hpt]
  simp only [hx1]
  exact splitText_bound (by norm_num [CHUNK_SIZE]) _ t ht

/-- C7 witness at a concrete corpus and chunk. -/
theorem C7_witness :
    sampleChunk.page_content.length ≤ CHUNK_SIZE ∨
      (∀ sp ∈ SEPARATORS, sp ≠ [] → containsSub sp sampleChunk.page_content = false) :=
  C7_chunk_length_bounded [sampleDoc] sampleChunk (by decide)

/-- C10: for every chunk produced by `split_documents`, the recorded
`chunk_length` equals the actual length of its text, and the recorded
`category` and `topic` are exactly the Categorizer applied to the basename
of the chunk's own source path. -/
theorem C10_chunk_metadata_consistent (documents : List Document)
    (cs co : Nat) (c : Chunk) (hc : c ∈ split_documents documents cs co) :
    c.chunk_length = c.page_content.length ∧
    c.category = extract_module_category (basename c.source) ∧
    c.topic = extract_topic_name (basename c.source) := by
  simp only [split_documents, List.mem_map] at hc
  obtain ⟨p, -, rfl⟩ := hc
  exact ⟨rfl, rfl, rfl⟩

/-- C10 witness at a concrete corpus and chunk. -/
theorem C10_witness :
    sampleChunk.chunk_length = sampleChunk.page_content.length ∧
    sampleChunk.category = extract_module_category (basename sampleChunk.source) ∧
    sampleChunk.topic = extract_topic_name (basename sampleChunk.source) :=
  C10_chunk_metadata_consistent [sampleDoc] CHUNK_SIZE CHUNK_OVERLAP sampleChunk (by decide)

/-- C4 counterexample: called with an explicitly empty chunk sequence (no
index present, so the build path is taken), `create_vector_store` does not
fail with the spec's NoInputError and does perform embedding work: it
initializes the embedding model and hands the empty list to FAISS, which
fails with IndexError. -/
theorem C4_counterexample :
    (create_vector_store fsNoCorpus (some []) "idx" false [] "PDFs").1 ≠
      Except.error PyErr.noInputError ∧
    (create_vector_store fsNoCorpus (some []) "idx" false [] "PDFs").1 =
      Except.error PyErr.indexError ∧
    Event.embedInit ∈ (create_vector_store fsNoCorpus (some []) "idx" false [] "PDFs").2 := by
  refine ⟨?_, rfl, by decide⟩
  intro h
  exact PyErr.noConfusion (Except.error.inj h)

/-- C4 (amended): on an empty chunk sequence, with the build path taken
(no existing index, or force_recreate), `create_vector_store` performs no
empty-input validation: it creates the target directory, initializes the
embedding model and attempts to embed zero documents, and the build then
fails inside the FAISS library with IndexError — not with a NoInputError
raised before embedding work; no index is persisted. -/
theorem C4_empty_chunks_fails_in_library (fs : FS) (dir pdfDir : String)
    (force : Bool) (resp : List Char)
    (hgate : fs.indexExists dir = false ∨ force = true) :
    (create_vector_store fs (some []) dir force resp pdfDir).1 =
      Except.error PyErr.indexError ∧
    (create_vector_store fs (some []) dir force resp pdfDir).2 =
      [Event.makedirs dir, Event.embedInit, Event.embedDocuments 0] ∧
    Event.saveIndex dir ∉ (create_vector_store fs (some []) dir force resp pdfDir).2 := by
  have hcond : (fs.indexExists dir && !force) = false := by
    rcases hgate with h | h <;> simp [h]
  refine ⟨?_, ?_, ?_⟩ <;>
    simp [create_vector_store, hcond, buildIndex]

/-- C4 witness for the amended claim at a concrete environment. -/
theorem C4_witness :
    (create_vector_store fsNoCorpus (some []) "idx2" false [] "PDFs").1 =
      Except.error PyErr.indexError ∧
    Event.saveIndex "idx2" ∉ (create_vector_store fsNoCorpus (some []) "idx2" false [] "PDFs").2 := by
  have h := C4_empty_chunks_fails_in_library fsNoCorpus "idx2" "PDFs" false [] (Or.inl rfl)
  exact ⟨h.1, h.2.2⟩

/-- C5: when a persisted index already exists at the target location,
`create_vector_store` never overwrites it silently: a save happens only
when `force_recreate` is set or the prompt response lowercases to exactly
"y"; otherwise the existing index is loaded and returned and no save
occurs. -/
theorem C5_no_silent_overwrite (fs : FS) (chunks : Option (List Chunk))
    (dir : String) (force : Bool) (resp : List Char) (pdfDir : String)
    (hidx : fs.indexExists dir = true) :
    (Event.saveIndex dir ∈ (create_vector_store fs chunks dir force resp pdfDir).2 →
      force = true ∨ pyLower resp = String.toList "y") ∧
    (force = false → pyLower resp ≠ String.toList "y" →
      (create_vector_store fs chunks dir force resp pdfDir).1 =
        Except.ok (VSResult.loaded dir) ∧
      Event.saveIndex dir ∉ (create_vector_store fs chunks dir force resp pdfDir).2) := by
  by_cases hf : force = true
  · exact ⟨fun _ => Or.inl hf, fun hff => absurd hf (by simp [hff])⟩
  · replace hf : force = false := by simpa using hf
    by_cases hy : pyLower resp = String.toList "y"
    · exact ⟨fun _ => Or.inr hy, fun _ hne => absurd hy hne⟩
    · have hy2 : ¬pyLower resp = ['y'] := by simpa using hy
      refine ⟨fun hsave => ?_, fun _ _ => ⟨?_, ?_⟩⟩
      · exfalso
        simp [create_vector_store, hidx, hf, hy2, load_vector_store] at hsave
      · simp [create_vector_store, hidx, hf, hy2, load_vector_store]
      · intro hsave
        simp [create_vector_store, hidx, hf, hy2, load_vector_store] at hsave

/-- C5 witness: a declined prompt ("n") with an existing index loads the
index and performs no save. -/
theorem C5_witness :
    (create_vector_store fsWithIndex (some []) "idx" false (String.toList "n") "PDFs").1 =
      Except.ok (VSResult.loaded "idx") ∧
    Event.saveIndex "idx" ∉
      (create_vector_store fsWithIndex (some []) "idx" false (String.toList "n") "PDFs").2 :=
  (C5_no_silent_overwrite fsWithIndex (some []) "idx" false (String.toList "n") "PDFs"
    rfl).2 rfl (by decide)

/-- C8: when the source PDF directory does not exist or holds no PDF
files, `load_pdfs` fails with the corpus-not-found class of error
(FileNotFoundError or ValueError), the same error aborts
`create_vector_store` on the build path, and no embedding event (neither
embedding-model initialization nor document embedding) occurs before the
failure. -/
theorem C8_corpus_errors_abort_before_embedding (fs : FS) (dir : String)
    (force : Bool) (resp : List Char) (pdfDir : String)
    (hcorpus : fs.dirExists pdfDir = false ∨ fs.pdfFiles pdfDir = [])
    (hbuild : fs.indexExists dir = false ∨ force = true) :
    (∃ e, load_pdfs fs pdfDir = .error e ∧ isCorpusNotFound e = true) ∧
    (∃ e, (create_vector_store fs none dir force resp pdfDir).1 = .error e ∧
      isCorpusNotFound e = true) ∧
    (∀ x ∈ (create_vector_store fs none dir force resp pdfDir).2,
      isEmbedEvent x = false) := by
  have hload : ∃ e, load_pdfs fs pdfDir = .error e ∧ isCorpusNotFound e = true := by
    by_cases hd : fs.dirExists pdfDir = false
    · refine ⟨PyErr.fileNotFoundError ("Directory " ++ pdfDir ++ " not found!"), ?_, rfl⟩
      simp [load_pdfs, hd]
    · rcases hcorpus with h | h
      · exact absurd h hd
      · have hdt : fs.dirExists pdfDir = true := by simpa using hd
        refine ⟨PyErr.valueError ("No PDF files found in " ++ pdfDir), ?_, rfl⟩
        simp [load_pdfs, hdt, h]
  obtain ⟨e, he, hce⟩ := hload
  have hcond : (fs.indexExists dir && !force) = false := by
    rcases hbuild with h | h <;> simp [h]
  have hcreate : create_vector_store fs none dir force resp pdfDir =
      (.error e, [Event.makedirs dir]) := by
    simp [create_vector_store, hcond, buildIndex, he, Except.map]
  refine ⟨⟨e, he, hce⟩, ⟨e, by rw [hcreate], hce⟩, ?_⟩
  rw [hcreate]
  intro x hx
  simp only [List.mem_singleton] at hx
  subst hx
  rfl

/-- C8 witness: a missing corpus directory aborts the build with a
corpus-not-found error and an event trace free of embedding work. -/
theorem C8_witness :
    fsNoCorpus.dirExists "PDFs" = false ∧
    (∃ e, (create_vector_store fsNoCorpus none "idx" false [] "PDFs").1 = .error e ∧
      isCorpusNotFound e = true) ∧
    (∀ x ∈ (create_vector_store fsNoCorpus none "idx" false [] "PDFs").2,
      isEmbedEvent x = false) := by
  have h := C8_corpus_errors_abort_before_embedding fsNoCorpus "idx" false [] "PDFs"
    (Or.inl rfl) (Or.inl rfl)
  exact ⟨rfl, h.2.1, h.2.2⟩
